import Mathlib

/-!
Verification development for the Onyx compiler driver (`compiler/src/onyx.c`).

The definitions below are a shallow embedding of the driver core: the
watermark-based cycle detector of `onyx_compile`, the special-globals
counter of `process_entity`, the loaded-file registry logic of
`process_source_file`, one iteration of the main compile loop, the
Code_Gen dispatch case and the output-flushing decision of `main`,
`onyx_flush_module`, and the command-line parser `compile_opts_parse`.
External collaborators (parser, symbol resolver, type checker, emitter)
are modelled as parameters: the driver only observes the state they leave
on an entity and whether that state changed.
-/

namespace Onyx

/-- Entity states, in the pipeline order used by the driver
(`Entity_State_*` in the source; the spec lists the same order). -/
inductive EntityState
  | Error
  | Parse_Builtin
  | Introduce_Symbols
  | Parse
  | Resolve_Symbols
  | Check_Types
  | Code_Gen
  | Finalized
  | Failed
deriving DecidableEq

/-- An entity state is terminal when it is `Finalized` or `Failed`;
the driver never re-inserts such an entity (onyx.c line 1012). -/
def isFinal : EntityState → Bool
  | EntityState.Finalized => true
  | EntityState.Failed => true
  | _ => false

/-- State of the cycle detector kept between dispatches of `onyx_compile`
(onyx.c lines 980-1005).  `watermarked` mirrors the static pointer
`watermarked_node`: it stores the id of the suspected-stuck entity together
with that entity's current dispatch-attempt count (the `macro_attempts`
field the pointer would read).  `dumped` records whether `dump_cycles` has
been invoked. -/
structure DetectState where
  watermarked : Option (Nat × Nat)
  highest_watermark : Nat
  cycle_almost_detected : Nat
  dumped : Bool
deriving DecidableEq

/-- Detector state at the start of a compilation: `watermarked_node = NULL`,
`highest_watermark = 0` (static initializers), `cycle_almost_detected = 0`
(set by `context_init`), and `dump_cycles` not yet invoked. -/
def detect_init : DetectState :=
  { watermarked := none, highest_watermark := 0, cycle_almost_detected := 0, dumped := false }

/-- One evaluation of the cycle-breaking logic after a dispatch
(onyx.c lines 982-1005).  `changed` is `process_entity`'s return value,
`ent` is the dispatched entity as an (id, macro_attempts) pair.  The
returned `Bool` reports whether the detector re-inserted the entity into
the heap (the `entity_heap_insert_existing` call at line 989). -/
def detect_step (s : DetectState) (changed : Bool) (ent : Nat × Nat) : DetectState × Bool :=
  if changed then
    ({ s with watermarked := none, cycle_almost_detected := 0 }, false)
  else
    match s.watermarked with
    | none =>
        ({ s with watermarked := some ent,
                  highest_watermark := max s.highest_watermark ent.2 }, false)
    | some w =>
        if w.1 = ent.1 then
          if s.highest_watermark < ent.2 then
            if s.cycle_almost_detected = 3 then
              ({ s with watermarked := some ent, dumped := true }, true)
            else
              ({ s with watermarked := some ent,
                        cycle_almost_detected := s.cycle_almost_detected + 1 }, true)
          else ({ s with watermarked := some ent }, false)
        else
          if w.2 < ent.2 then
            ({ s with watermarked := some ent,
                      highest_watermark := max s.highest_watermark ent.2 }, false)
          else (s, false)

/-- Detector state after `n` dispatches of a pure deadlock run: the same
entity (id 0) is popped over and over, never changes state, and its
macro_attempts counter reads `k` on the (k+1)-st dispatch (each failed
dispatch increments it). -/
def stallState : Nat → DetectState
  | 0 => detect_init
  | n + 1 => (detect_step (stallState n) false (0, n)).1

/-- Whether the cycle detector itself re-inserted the entity on the
(n+1)-st dispatch of the pure deadlock run. -/
def stallInserted (n : Nat) : Bool :=
  (detect_step (stallState n) false (0, n)).2

/-- Decrement of the `u32` counter `special_global_entities_remaining`:
decrementing zero wraps around to 2^32 - 1. -/
def u32_dec (r : Nat) : Nat := if r = 0 then 4294967295 else r - 1

/-- The special-globals bookkeeping of the `Entity_State_Parse` case of
`process_entity` (onyx.c lines 809-828): the counter
`special_global_entities_remaining` and the number of times
`initalize_special_globals` has been called. -/
structure SpecialGlobals where
  remaining : Nat
  fires : Nat
deriving DecidableEq

/-- Initial special-globals state: `special_global_entities_remaining = 5`
(set by `context_init`), callback not yet fired. -/
def sg_init : SpecialGlobals := { remaining := 5, fires := 0 }

/-- One dispatch of a `Parse`-state entity, restricted to the
special-globals bookkeeping (onyx.c lines 809-828).  First, if the counter
is zero, it is decremented (wrapping) and the initialize-special-globals
callback fires; only then is the load processed.  `special` says whether
the dispatched entity is one of the five runtime-info load entities,
`load_ok` whether `process_load_entity` succeeded (in which case the
entity reaches `Finalized` and, if special, the counter is decremented). -/
def parse_dispatch_step (c : SpecialGlobals) (special load_ok : Bool) : SpecialGlobals :=
  let c1 := if c.remaining = 0
            then { remaining := u32_dec c.remaining, fires := c.fires + 1 }
            else c
  if special && load_ok then { c1 with remaining := u32_dec c1.remaining } else c1

/-- A sequence of `Parse`-state dispatches, each event being
(is one of the five special entities, load succeeded). -/
def parse_dispatch_run : SpecialGlobals → List (Bool × Bool) → SpecialGlobals
  | c, [] => c
  | c, e :: t => parse_dispatch_run (parse_dispatch_step c e.1 e.2) t

/-- Contribution of one dispatch event to the number of successful
special-entity parses. -/
def specialsOne (e : Bool × Bool) : Nat := if e.1 && e.2 then 1 else 0

/-- Number of successful special-entity parses in an event sequence. -/
def specials : List (Bool × Bool) → Nat
  | [] => 0
  | e :: t => specialsOne e + specials t

/-- Reachability invariant of the special-globals state: after `k`
successful special parses either the callback has not fired and the
counter reads `5 - k`, or all five finished, the callback fired once and
the counter wrapped to 2^32 - 1. -/
def SgInv (c : SpecialGlobals) (k : Nat) : Prop :=
  (c.fires = 0 ∧ k ≤ 5 ∧ c.remaining = 5 - k) ∨
  (c.fires = 1 ∧ k = 5 ∧ c.remaining = 4294967295)

/-- A source position (`OnyxFilePos`): the filename is NULL for positions
synthesized for command-line files. -/
structure FilePos where
  filename : Option String
  line : Nat
  column : Nat
deriving DecidableEq

/-- Error ranks used by `process_source_file` when a file cannot be
opened (`Error_Command_Line_Arg` and `Error_Critical`). -/
inductive ErrorRank
  | Command_Line_Arg
  | Critical
deriving DecidableEq

/-- Result of `process_source_file` (onyx.c lines 640-670): the
loaded-file registry afterwards, the errors reported during the call
(position, rank, and the filename in the message), the `b32` return
value, and whether the file was actually read and parsed. -/
structure LoadResult where
  loaded_files : List String
  errors : List (FilePos × ErrorRank × String)
  ok : Bool
  parsed : Bool
deriving DecidableEq

/-- Shallow embedding of `process_source_file` (onyx.c lines 640-670).
The registry scan compares full path strings (`strcmp`), modelled as list
membership; the file system is a partial map from path to contents.  A
hit in the registry returns success immediately.  A failed open reports
an error only in `cycle_detected` mode: a command-line-argument error
when the position has no filename, a critical error otherwise. -/
def process_source_file (loaded_files : List String) (cycle_detected : Bool)
    (fs : String → Option Unit) (filename : String) (error_pos : FilePos) : LoadResult :=
  if filename ∈ loaded_files then
    { loaded_files := loaded_files, errors := [], ok := true, parsed := false }
  else
    match fs filename with
    | none =>
        if cycle_detected then
          if error_pos.filename = none then
            { loaded_files := loaded_files,
              errors := [(error_pos, ErrorRank.Command_Line_Arg, filename)],
              ok := false, parsed := false }
          else
            { loaded_files := loaded_files,
              errors := [(error_pos, ErrorRank.Critical, filename)],
              ok := false, parsed := false }
        else
          { loaded_files := loaded_files, errors := [], ok := false, parsed := false }
    | some _ =>
        { loaded_files := loaded_files ++ [filename], errors := [], ok := true, parsed := true }

/-- Registry contents after a sequence of loads; each job is a filename
together with the `cycle_detected` mode and error position of that load. -/
def run_loads (reg : List String) (fs : String → Option Unit) :
    List (String × Bool × FilePos) → List String
  | [] => reg
  | j :: t =>
      run_loads ((process_source_file reg j.2.1 fs j.1 j.2.2).loaded_files) fs t

/-- The error-reporting enable call `onyx_errors_enable`: it sets the
global enable flag to true regardless of its previous value. -/
def onyx_errors_enable (_enabled : Bool) : Bool := true

/-- Observable outcome of one iteration of the `onyx_compile` main loop. -/
structure IterResult where
  heap : List (Nat × EntityState)
  reinserted : Bool
  stall_inserted : Bool
  aborted : Bool
  errors_on_at_dispatch : Bool
deriving DecidableEq

/-- One iteration of the main compile loop (onyx.c lines 921-1022),
dispatching the top entity `ent`.  The collaborators are external, so the
post-dispatch state `post` and the dispatch-attempt count `att` of the
entity, and whether `onyx_has_errors()` holds after the dispatch, are
parameters.  The iteration: re-enables error reporting, removes the top
entity, dispatches it (`changed` compares states exactly as line 847
does), runs the cycle detector (which may itself re-insert the entity),
returns early when errors were reported (line 1007), and otherwise
re-inserts the entity unless its state is `Finalized` or `Failed`
(lines 1012-1013). -/
def loop_iter (heap : List (Nat × EntityState)) (errors_enabled : Bool)
    (ent : Nat × EntityState) (post : EntityState) (att : Nat)
    (d : DetectState) (has_errors : Bool) : IterResult × DetectState :=
  let enabled_now := onyx_errors_enable errors_enabled
  let heap1 := heap.erase ent
  let changed := decide (post ≠ ent.2)
  let step := detect_step d changed (ent.1, att)
  let heap2 := if step.2 then (ent.1, post) :: heap1 else heap1
  if has_errors then
    ({ heap := heap2, reinserted := false, stall_inserted := step.2,
       aborted := true, errors_on_at_dispatch := enabled_now }, step.1)
  else
    let rc := decide (post ≠ EntityState.Finalized ∧ post ≠ EntityState.Failed)
    ({ heap := if rc then (ent.1, post) :: heap2 else heap2,
       reinserted := rc, stall_inserted := step.2,
       aborted := false, errors_on_at_dispatch := enabled_now }, step.1)

/-- Compile actions (`ONYX_COMPILE_ACTION_*`). -/
inductive Action
  | Print_Help
  | Print_Version
  | Compile
  | Check
  | Run
  | Watch
  | Run_Wasm
deriving DecidableEq

/-- Compiler progress values (`CompilerProgress` in the source). -/
inductive CompilerProgress
  | Error
  | Failed_Output
  | Success
deriving DecidableEq

/-- The `Entity_State_Code_Gen` case of `process_entity` (onyx.c lines
834-842): under the check action the entity is transitioned directly to
`Finalized` and the emitter is not invoked; otherwise `emit_entity` runs
and leaves the entity in whatever state the (external) emitter chose,
modelled by `emit_result`.  The `Bool` reports whether the emitter ran. -/
def code_gen_case (action : Action) (emit_result : EntityState) : EntityState × Bool :=
  if action = Action.Check then (EntityState.Finalized, false)
  else (emit_result, true)

/-- Whether `main` (onyx.c lines 1253-1311) flushes the wasm module to the
output file for a given action and compilation result: only the compile
action (on success) and each successful cycle of watch mode call
`onyx_flush_module`; the check action never does. -/
def main_flushes : Action → CompilerProgress → Bool
  | Action.Compile, p => decide (p = CompilerProgress.Success)
  | Action.Watch, p => decide (p = CompilerProgress.Success)
  | _, _ => false

/-- Files written by `onyx_flush_module`: the wasm-module writes as
(path, data segment carried by the written module) in write order, and
the javascript-partials writes. -/
structure FlushResult where
  module_writes : List (String × Option Nat)
  js_writes : List String
deriving DecidableEq

/-- Shallow embedding of `onyx_flush_module` (onyx.c lines 1081-1139),
after linking.  `dataSeg` is the data segment of the wasm module (an
opaque payload, `none` when absent), `js_partials` the accumulated
javascript partials, `can_create` which paths `bh_file_create` accepts.
`none` models the `ONYX_COMPILER_PROGRESS_FAILED_OUTPUT` returns.  When
multithreading is on and post-MVP features are off, the data segment is
moved out of the main module into a companion module written at
`<target>.data`, and the main module is written without it; otherwise a
single module keeping its data segment is written at the target path. -/
def onyx_flush_module (target : String) (use_multi_threading use_post_mvp_features : Bool)
    (dataSeg : Option Nat) (js_partials : List String)
    (can_create : String → Bool) : Option FlushResult :=
  if can_create target = false then none
  else
    let mwrites : Option (List (String × Option Nat)) :=
      if use_multi_threading && !use_post_mvp_features then
        if can_create (target ++ ".data") = false then none
        else some [(target ++ ".data", dataSeg), (target, none)]
      else some [(target, dataSeg)]
    match mwrites with
    | none => none
    | some mw =>
        if js_partials.length > 0 then
          if can_create (target ++ ".js") = false then none
          else some { module_writes := mw, js_writes := [target ++ ".js"] }
        else some { module_writes := mw, js_writes := [] }

/-- Target runtimes (`Runtime_*`). -/
inductive Runtime
  | Onyx
  | Wasi
  | Js
  | Custom
deriving DecidableEq

/-- The `CompileOptions` record filled in by `compile_opts_parse`.
String-valued fields that the C code can leave as or set to NULL are
`Option String` (`target_file` defaults to `out.wasm` but is set to the
NULL `argv[argc]` terminator when `-o` is the last argument; the search
path can likewise receive a NULL entry). -/
structure CompileOptions where
  action : Action
  verbose_output : Nat
  fun_output : Bool
  print_function_mappings : Bool
  print_static_if_results : Bool
  no_colors : Bool
  no_file_contents : Bool
  use_post_mvp_features : Bool
  use_multi_threading : Bool
  generate_foreign_info : Bool
  generate_type_info : Bool
  generate_method_info : Bool
  no_core : Bool
  no_stale_code : Bool
  show_all_errors : Bool
  enable_optional_semicolons : Bool
  runtime : Runtime
  files : List String
  target_file : Option String
  documentation_file : Option String
  symbol_info_file : Option String
  help_subcommand : Option String
  defined_variables : List (String × String)
  debug_session : Bool
  debug_info_enabled : Bool
  stack_trace_enabled : Bool
  passthrough : List String
  generate_tag_file : Bool
  generate_symbol_info_file : Bool
  generate_lsp_info_file : Bool
  running_perf : Bool
  error_format : Option String
  included_folders : List (Option String)
deriving DecidableEq

/-- The options record as initialized at the top of `compile_opts_parse`
(onyx.c lines 110-187), given the `ONYX_PATH` installation root and the
optional `ONYX_ERROR_FORMAT` environment override. -/
def opts_default (core : String) (err_env : Option String) : CompileOptions :=
  { action := Action.Print_Help
    verbose_output := 0
    fun_output := false
    print_function_mappings := false
    print_static_if_results := false
    no_colors := false
    no_file_contents := false
    use_post_mvp_features := true
    use_multi_threading := false
    generate_foreign_info := false
    generate_type_info := true
    generate_method_info := false
    no_core := false
    no_stale_code := false
    show_all_errors := false
    enable_optional_semicolons := false
    runtime := Runtime.Onyx
    files := []
    target_file := some "out.wasm"
    documentation_file := none
    symbol_info_file := none
    help_subcommand := none
    defined_variables := []
    debug_session := false
    debug_info_enabled := false
    stack_trace_enabled := false
    passthrough := []
    generate_tag_file := false
    generate_symbol_info_file := false
    generate_lsp_info_file := false
    running_perf := false
    error_format := some (err_env.getD "v1")
    included_folders := [some core, some "."] }

/-- Options after `onyx build` with no further arguments: the compile
action with multithreading forced on by the default onyx runtime. -/
def build_base (core : String) (err_env : Option String) : CompileOptions :=
  { opts_default core err_env with action := Action.Compile, use_multi_threading := true }

/-- Outcome of `compile_opts_parse`: a filled-in options record, an error
printed followed by `exit(1)`, or a crash from passing the NULL
`argv[argc]` terminator to `strcmp` (undefined behavior in the source). -/
inductive ParseOutcome
  | ok (opts : CompileOptions)
  | exit1 (msg : String)
  | crash
deriving DecidableEq

/-- The code at the `skip_parsing_arguments` label (onyx.c lines 401-408):
the onyx runtime always forces multithreading on. -/
def finish_opts (o : CompileOptions) : ParseOutcome :=
  if o.runtime = Runtime.Onyx then ParseOutcome.ok { o with use_multi_threading := true }
  else ParseOutcome.ok o

/-- The flag loop of `compile_opts_parse` (onyx.c lines 252-399), with the
checks in source order.  A flag that wants an argument reads `argv[++i]`:
when the flag is the last argument that reads the NULL `argv[argc]`
terminator, which is stored as `none` for string-valued options, while
`-r`/`--runtime` and `--feature` pass it straight to `strcmp` (a crash).
Consuming the terminator also ends the loop, hence the direct
`finish_opts` calls in those branches. -/
def parse_flags : CompileOptions → List String → ParseOutcome
  | o, [] => finish_opts o
  | o, a :: rest =>
    if a = "-o" ∨ a = "--output" then
      match rest with
      | [] => finish_opts { o with target_file := none }
      | v :: r2 => parse_flags { o with target_file := some v } r2
    else if a = "--verbose" ∨ a = "-V" then parse_flags { o with verbose_output := 1 } rest
    else if a = "-VV" then parse_flags { o with verbose_output := 2 } rest
    else if a = "-VVV" then parse_flags { o with verbose_output := 3 } rest
    else if a = "--print-function-mappings" then
      parse_flags { o with print_function_mappings := true } rest
    else if a = "--print-static-if-results" then
      parse_flags { o with print_static_if_results := true } rest
    else if a = "--no-colors" then parse_flags { o with no_colors := true } rest
    else if a = "--no-file-contents" then parse_flags { o with no_file_contents := true } rest
    else if a = "--wasm-mvp" then parse_flags { o with use_post_mvp_features := false } rest
    else if a = "--multi-threaded" then parse_flags { o with use_multi_threading := true } rest
    else if a = "--generate-foreign-info" then
      parse_flags { o with generate_foreign_info := true } rest
    else if a = "--generate-method-info" then
      parse_flags { o with generate_method_info := true } rest
    else if a = "--no-type-info" then parse_flags { o with generate_type_info := false } rest
    else if a = "--no-core" then parse_flags { o with no_core := true } rest
    else if a = "--no-stale-code" then parse_flags { o with no_stale_code := true } rest
    else if a = "--show-all-errors" then parse_flags { o with show_all_errors := true } rest
    else if a = "--error-format" then
      match rest with
      | [] => finish_opts { o with error_format := none }
      | v :: r2 => parse_flags { o with error_format := some v } r2
    else if a = "--feature" then
      match rest with
      | [] => ParseOutcome.crash
      | v :: r2 =>
          if v = "optional-semicolons" then
            parse_flags { o with enable_optional_semicolons := true } r2
          else parse_flags o r2
    else if a = "-I" then
      match rest with
      | [] => finish_opts { o with included_folders := o.included_folders ++ [none] }
      | v :: r2 =>
          parse_flags { o with included_folders := o.included_folders ++ [some v] } r2
    else if a.data.take 2 = ['-', 'D'] then
      let body := a.data.drop 2
      let dv :=
        if body.contains (Char.ofNat 61) = true then
          (String.mk (body.takeWhile (fun c => c != Char.ofNat 61)),
           String.mk ((body.dropWhile (fun c => c != Char.ofNat 61)).drop 1))
        else (String.mk body, "")
      parse_flags { o with defined_variables := o.defined_variables ++ [dv] } rest
    else if a = "-r" ∨ a = "--runtime" then
      match rest with
      | [] => ParseOutcome.crash
      | v :: r2 =>
          let rt := if v = "onyx" then Runtime.Onyx
                    else if v = "wasi" then Runtime.Wasi
                    else if v = "js" then Runtime.Js
                    else if v = "custom" then Runtime.Custom
                    else Runtime.Onyx
          parse_flags { o with runtime := rt } r2
    else if a = "--doc" then
      match rest with
      | [] => finish_opts { o with documentation_file := none }
      | v :: r2 => parse_flags { o with documentation_file := some v } r2
    else if a = "--tag" then parse_flags { o with generate_tag_file := true } rest
    else if a = "--syminfo" then
      match rest with
      | [] => finish_opts { o with generate_symbol_info_file := true, symbol_info_file := none }
      | v :: r2 =>
          parse_flags { o with generate_symbol_info_file := true, symbol_info_file := some v } r2
    else if a = "--lspinfo" then
      match rest with
      | [] => finish_opts { o with generate_symbol_info_file := true,
                                   generate_lsp_info_file := true, symbol_info_file := none }
      | v :: r2 =>
          parse_flags { o with generate_symbol_info_file := true,
                               generate_lsp_info_file := true, symbol_info_file := some v } r2
    else if a = "--debug" then
      parse_flags { o with debug_session := true, debug_info_enabled := true,
                           stack_trace_enabled := true } rest
    else if a = "--debug-info" then
      parse_flags { o with debug_info_enabled := true, stack_trace_enabled := true } rest
    else if a = "--stack-trace" then parse_flags { o with stack_trace_enabled := true } rest
    else if a = "--perf" then parse_flags { o with running_perf := true } rest
    else if a = "--" then finish_opts { o with passthrough := rest }
    else if a = "--fun" ∨ a = "-F" then parse_flags { o with fun_output := true } rest
    else if a.endsWith ".wasm" ∧ o.action = Action.Run then
      if o.files.length > 0 then
        ParseOutcome.exit1 "Expected only one wasm, or multiple onyx files to be given"
      else
        finish_opts { o with action := Action.Run_Wasm, target_file := some a,
                             passthrough := rest }
    else parse_flags { o with files := o.files ++ [a] } rest

/-- Shallow embedding of `compile_opts_parse` (onyx.c lines 109-409).
`core` is the `ONYX_PATH` installation root (the parse exits earlier when
it is unset), `err_env` the optional `ONYX_ERROR_FORMAT` value,
`tool_exists` models `bh_file_exists` for the script-subcommand fallback,
and `args` is `argv[1..]`.  The build models a Linux build with the
runtime library compiled in, so the `run` and `watch` subcommands exist. -/
def compile_opts_parse (core : String) (err_env : Option String)
    (tool_exists : String → Bool) (args : List String) : ParseOutcome :=
  let o0 := opts_default core err_env
  match args with
  | [] => ParseOutcome.ok o0
  | sub :: rest =>
    if sub = "help" then
      finish_opts { o0 with action := Action.Print_Help, help_subcommand := rest.head? }
    else if sub = "version" then
      finish_opts { o0 with action := Action.Print_Version }
    else if sub = "compile" ∨ sub = "build" then
      parse_flags { o0 with action := Action.Compile } rest
    else if sub = "check" then
      parse_flags { o0 with action := Action.Check } rest
    else if sub = "pkg" ∨ sub = "package" then
      finish_opts { o0 with action := Action.Run, passthrough := rest,
                            generate_method_info := true,
                            files := [core ++ "/tools/onyx-pkg.onyx"] }
    else if sub = "run" then
      parse_flags { o0 with action := Action.Run } rest
    else if sub = "watch" then
      parse_flags { o0 with action := Action.Watch } rest
    else
      let script := core ++ "/tools/" ++ sub ++ ".wasm"
      if tool_exists script then
        finish_opts { o0 with action := Action.Run_Wasm, target_file := some script,
                              passthrough := rest }
      else ParseOutcome.exit1 ("Unknown subcommand: " ++ sub)

end Onyx

namespace Onyx

/-- Closed form of the detector state along the pure deadlock run: after the
first dispatch sets the watermark, every further dispatch is a stall lap
(the entity's attempt count always exceeds the stale `highest_watermark`,
which is never updated on lap branches), the counter saturates at 3, and
`dump_cycles` runs from the 5th dispatch on. -/
lemma stallState_closed_form (n : Nat) :
    stallState (n + 1) =
      { watermarked := some (0, n), highest_watermark := 0,
        cycle_almost_detected := min n 3, dumped := decide (4 ≤ n) } := by
  induction n with
  | zero => decide
  | succ m ih =>
      have h : stallState (m + 1 + 1) = (detect_step (stallState (m + 1)) false (0, m + 1)).1 := rfl
      rw [h, ih]
      by_cases hm : 3 ≤ m
      · have h1 : min m 3 = 3 := by omega
        have h2 : min (m + 1) 3 = 3 := by omega
        have h3 : 4 ≤ m + 1 := by omega
        simp [detect_step, h1, h2, h3]
      · have h1 : min m 3 = m := by omega
        have h2 : min (m + 1) 3 = m + 1 := by omega
        have h3 : ¬ (4 ≤ m) := by omega
        have h4 : ¬ (4 ≤ m + 1) := by omega
        have h5 : ¬ (m = 3) := by omega
        simp [detect_step, h1, h2, h3, h4, h5]

/-- A dispatch that changes the entity's state clears the watermark and
resets the counter. -/
lemma detect_reset (s : DetectState) (e : Nat × Nat) :
    (detect_step s true e).1.watermarked = none ∧
    (detect_step s true e).1.cycle_almost_detected = 0 := by
  simp [detect_step]

/-- On every stall lap of the deadlock run the detector re-inserts the
entity into the heap, whether or not it also invokes `dump_cycles`. -/
lemma stall_inserted_true (n : Nat) : stallInserted (n + 1) = true := by
  unfold stallInserted
  rw [stallState_closed_form n]
  by_cases h : min n 3 = 3 <;> simp [detect_step, h]

/-- The stall counter after `n` dispatches of the deadlock run. -/
lemma stall_cad (n : Nat) : (stallState n).cycle_almost_detected = min (n - 1) 3 := by
  cases n with
  | zero => decide
  | succ m => rw [stallState_closed_form m]; simp

/-- `dump_cycles` has run exactly when the deadlock run has made at least
5 dispatches of the stuck entity, i.e. 4 stall laps. -/
lemma stall_dumped (n : Nat) : (stallState n).dumped = true ↔ 5 ≤ n := by
  cases n with
  | zero => simp [stallState, detect_init]
  | succ m => rw [stallState_closed_form m]; simp

/-- C1 counterexample: the claim says `dump_cycles` is invoked when
`cycle_almost_detected` reaches 3, i.e. after at most 3 stall laps.  In
the deadlock run the counter reaches 3 on the 3rd stall lap (the 4th
dispatch of the stuck entity) with `dump_cycles` not yet invoked; the
dump only happens on the 4th stall lap. -/
theorem cycle_detector_three_stall_laps_no_dump :
    (stallState 4).cycle_almost_detected = 3 ∧ (stallState 4).dumped = false ∧
    (stallState 5).dumped = true := by decide

/-- C1 (amended): whenever the watermarked entity is popped again with
macro_attempts exceeding highest_watermark, it is re-inserted by the
detector, but `cycle_almost_detected` is incremented only while it is
below 3; `dump_cycles` is invoked on the stall lap that begins with the
counter already equal to 3 — so a pure deadlock triggers `dump_cycles` on
the 4th stall lap (the 5th dispatch of the stuck entity), not within 3.
A dispatch that changes an entity's state still clears the watermarked
entity and resets `cycle_almost_detected` to 0. -/
theorem cycle_detector_fires_on_fourth_stall_lap :
    (∀ (s : DetectState) (e : Nat × Nat),
        (detect_step s true e).1.watermarked = none ∧
        (detect_step s true e).1.cycle_almost_detected = 0)
    ∧ (∀ n, stallInserted (n + 1) = true)
    ∧ (∀ n, (stallState n).cycle_almost_detected = min (n - 1) 3)
    ∧ (∀ n, ((stallState n).dumped = true ↔ 5 ≤ n)) :=
  ⟨detect_reset, stall_inserted_true, stall_cad, stall_dumped⟩

/-- The callback-fire count after one `Parse` dispatch depends only on the
counter value at entry: the one-shot check precedes the load processing. -/
lemma sg_step_fires (c : SpecialGlobals) (sp su : Bool) :
    (parse_dispatch_step c sp su).fires
      = c.fires + (if c.remaining = 0 then 1 else 0) := by
  unfold parse_dispatch_step
  by_cases h : c.remaining = 0 <;> by_cases h2 : (sp && su) = true <;> simp [h, h2]

/-- One dispatch preserves the special-globals invariant. -/
lemma sg_inv_step (c : SpecialGlobals) (k : Nat) (e : Bool × Bool)
    (h : SgInv c k) (hk : k + specialsOne e ≤ 5) :
    SgInv (parse_dispatch_step c e.1 e.2) (k + specialsOne e) := by
  by_cases hsp : (e.1 && e.2) = true <;>
    rcases h with ⟨hf, hk5, hr⟩ | ⟨hf, hk5, hr⟩
  · have hs1 : specialsOne e = 1 := by simp [specialsOne, hsp]
    have hnz : ¬ (c.remaining = 0) := by omega
    simp [SgInv, parse_dispatch_step, u32_dec, hsp, hnz, hs1]
    omega
  · have hs1 : specialsOne e = 1 := by simp [specialsOne, hsp]
    omega
  · have hs0 : specialsOne e = 0 := by simp [specialsOne, hsp]
    by_cases hz : c.remaining = 0
    · have hk5e : k = 5 := by omega
      simp [SgInv, parse_dispatch_step, u32_dec, hsp, hz, hs0]
      omega
    · simp [SgInv, parse_dispatch_step, u32_dec, hsp, hz, hs0]
      omega
  · have hs0 : specialsOne e = 0 := by simp [specialsOne, hsp]
    have hz : ¬ (c.remaining = 0) := by omega
    simp [SgInv, parse_dispatch_step, u32_dec, hsp, hz, hs0]
    omega

/-- Running a concatenation of dispatch sequences composes. -/
lemma sg_run_append : ∀ (l1 l2 : List (Bool × Bool)) (c : SpecialGlobals),
    parse_dispatch_run c (l1 ++ l2) = parse_dispatch_run (parse_dispatch_run c l1) l2 := by
  intro l1
  induction l1 with
  | nil => intro l2 c; rfl
  | cons e t ih => intro l2 c; simpa [parse_dispatch_run] using ih l2 _

/-- The special-globals invariant holds along any dispatch sequence with
at most five successful special parses. -/
lemma sg_inv_run : ∀ (evs : List (Bool × Bool)) (c : SpecialGlobals) (k : Nat),
    SgInv c k → k + specials evs ≤ 5 →
    SgInv (parse_dispatch_run c evs) (k + specials evs) := by
  intro evs
  induction evs with
  | nil =>
      intro c k h _
      simpa [parse_dispatch_run, specials] using h
  | cons e t ih =>
      intro c k h hk
      have hs : specials (e :: t) = specialsOne e + specials t := rfl
      have h1 := sg_inv_step c k e h (by rw [hs] at hk; omega)
      have h2 := ih (parse_dispatch_step c e.1 e.2) (k + specialsOne e) h1
        (by rw [hs] at hk; omega)
      have heq : k + specials (e :: t) = k + specialsOne e + specials t := by rw [hs]; omega
      rw [heq]
      simpa [parse_dispatch_run] using h2

/-- The initialize-special-globals callback fires at most once in any run. -/
lemma sg_fires_le_one (evs : List (Bool × Bool)) (h : specials evs ≤ 5) :
    (parse_dispatch_run sg_init evs).fires ≤ 1 := by
  have hinv : SgInv sg_init 0 := Or.inl (by simp [sg_init, SgInv])
  have h2 := sg_inv_run evs sg_init 0 hinv (by omega)
  rcases h2 with ⟨hf, _, _⟩ | ⟨hf, _, _⟩ <;> omega

/-- The fire count never decreases along a run. -/
lemma sg_fires_mono : ∀ (evs : List (Bool × Bool)) (c : SpecialGlobals),
    c.fires ≤ (parse_dispatch_run c evs).fires := by
  intro evs
  induction evs with
  | nil => intro c; simp [parse_dispatch_run]
  | cons e t ih =>
      intro c
      have h1 : c.fires ≤ (parse_dispatch_step c e.1 e.2).fires := by
        rw [sg_step_fires]; omega
      have h2 := ih (parse_dispatch_step c e.1 e.2)
      calc c.fires ≤ (parse_dispatch_step c e.1 e.2).fires := h1
        _ ≤ (parse_dispatch_run (parse_dispatch_step c e.1 e.2) t).fires := h2

/-- Successful special parses add across concatenation. -/
lemma specials_append (l1 l2 : List (Bool × Bool)) :
    specials (l1 ++ l2) = specials l1 + specials l2 := by
  induction l1 with
  | nil => simp [specials]
  | cons e t ih => simp [specials, ih]; omega

/-- C2: starting from `special_global_entities_remaining = 5`, the counter
is decremented once per successful special-entity parse; once all five
have succeeded, the initialize-special-globals callback fires on the next
`Parse`-state dispatch and exactly once for the whole run — it can never
fire a second time because the counter wraps to 2^32 - 1.  The last
conjunct shows the firing decision depends only on the counter at entry
to the dispatch, i.e. it happens before that dispatch's load is
processed. -/
theorem special_globals_initializer_fires_exactly_once
    (evs l1 l2 : List (Bool × Bool))
    (hall : specials evs ≤ 5) (hsplit : evs = l1 ++ l2)
    (h5 : specials l1 = 5) (hne : l2 ≠ []) :
    (parse_dispatch_run sg_init evs).fires = 1
    ∧ (∀ evs2, specials evs2 ≤ 5 → (parse_dispatch_run sg_init evs2).fires ≤ 1)
    ∧ (∀ (c : SpecialGlobals) (sp su : Bool), (parse_dispatch_step c sp su).fires
          = c.fires + (if c.remaining = 0 then 1 else 0)) := by
  refine ⟨?_, fun evs2 h => sg_fires_le_one evs2 h, fun c sp su => sg_step_fires c sp su⟩
  obtain ⟨e, t, rfl⟩ : ∃ e t, l2 = e :: t := by
    cases l2 with
    | nil => exact absurd rfl hne
    | cons e t => exact ⟨e, t, rfl⟩
  subst hsplit
  have hle := sg_fires_le_one (l1 ++ e :: t) hall
  have hc1 : SgInv (parse_dispatch_run sg_init l1) 5 := by
    have h0 : SgInv sg_init 0 := Or.inl (by simp [sg_init, SgInv])
    have := sg_inv_run l1 sg_init 0 h0 (by omega)
    simpa [h5] using this
  have hef : (parse_dispatch_step (parse_dispatch_run sg_init l1) e.1 e.2).fires = 1 := by
    rw [sg_step_fires]
    rcases hc1 with ⟨hf, _, hr⟩ | ⟨hf, _, hr⟩
    · simp [hr, hf]
    · rw [hr, hf]
      norm_num
  have hrun : parse_dispatch_run sg_init (l1 ++ e :: t)
      = parse_dispatch_run (parse_dispatch_step (parse_dispatch_run sg_init l1) e.1 e.2) t := by
    rw [sg_run_append]
    rfl
  have hmono := sg_fires_mono t (parse_dispatch_step (parse_dispatch_run sg_init l1) e.1 e.2)
  rw [hrun] at hle ⊢
  omega

/-- C2 witness: after the five special entities parse successfully and one
further `Parse` dispatch occurs, the callback has fired exactly once. -/
theorem special_globals_initializer_fires_exactly_once_witness :
    specials [(true, true), (true, true), (true, true), (true, true), (true, true),
              (false, true)] ≤ 5
    ∧ (parse_dispatch_run sg_init
        [(true, true), (true, true), (true, true), (true, true), (true, true),
         (false, true)]).fires = 1 :=
  ⟨by decide,
   (special_globals_initializer_fires_exactly_once
      [(true, true), (true, true), (true, true), (true, true), (true, true), (false, true)]
      [(true, true), (true, true), (true, true), (true, true), (true, true)]
      [(false, true)] (by decide) rfl (by decide) (by decide)).1⟩

end Onyx

namespace Onyx

/-- C3: for a load of a file that is not already registered and cannot be
opened, the call fails and leaves the registry unchanged; an error is
reported exactly when `cycle_detected` is set, carrying the load token's
position — a command-line-argument error when the position has no
filename, a critical error otherwise.  With `cycle_detected` unset no
error is reported at all. -/
theorem speculative_load_error_gating (reg : List String) (cyc : Bool)
    (fs : String → Option Unit) (fn : String) (pos : FilePos)
    (hreg : fn ∉ reg) (hfs : fs fn = none) :
    process_source_file reg cyc fs fn pos =
      { loaded_files := reg,
        errors := if cyc
                  then [(pos, if pos.filename = none then ErrorRank.Command_Line_Arg
                              else ErrorRank.Critical, fn)]
                  else [],
        ok := false, parsed := false } := by
  unfold process_source_file
  rw [if_neg hreg, hfs]
  cases cyc with
  | false => simp
  | true => by_cases hp : pos.filename = none <;> simp [hp]

/-- C3 witness: in `cycle_detected` mode a missing file whose load token
has no filename yields one command-line-argument error and failure. -/
theorem speculative_load_error_gating_witness :
    ("start.onyx" ∉ ([] : List String))
    ∧ process_source_file [] true (fun _ => none) "start.onyx"
        { filename := none, line := 1, column := 1 } =
      { loaded_files := [],
        errors := [({ filename := none, line := 1, column := 1 },
                    ErrorRank.Command_Line_Arg, "start.onyx")],
        ok := false, parsed := false } :=
  ⟨by simp,
   speculative_load_error_gating [] true (fun _ => none) "start.onyx"
     { filename := none, line := 1, column := 1 } (by simp) rfl⟩

/-- One call to `process_source_file` keeps the registry duplicate-free:
a registry hit or a failed open leaves it unchanged, and a successful
load appends a path that was not yet present. -/
lemma process_nodup (reg : List String) (cyc : Bool) (fs : String → Option Unit)
    (fn : String) (pos : FilePos) (h : reg.Nodup) :
    ((process_source_file reg cyc fs fn pos).loaded_files).Nodup := by
  unfold process_source_file
  by_cases hm : fn ∈ reg
  · simpa [hm] using h
  · rw [if_neg hm]
    cases hfs : fs fn with
    | none =>
        cases cyc with
        | false => simpa using h
        | true => by_cases hp : pos.filename = none <;> simpa [hp] using h
    | some u =>
        simp [List.nodup_append, h, hm]

/-- Any sequence of loads keeps the registry duplicate-free. -/
lemma run_loads_nodup (fs : String → Option Unit) :
    ∀ (jobs : List (String × Bool × FilePos)) (reg : List String),
      reg.Nodup → (run_loads reg fs jobs).Nodup := by
  intro jobs
  induction jobs with
  | nil => intro reg h; simpa [run_loads] using h
  | cons j t ih =>
      intro reg h
      have h2 := process_nodup reg j.2.1 fs j.1 j.2.2 h
      simpa [run_loads] using ih _ h2

/-- C4: a load of a path already present in the registry returns success
as a no-op — no open, no parse, no new registry entry — and consequently
any sequence of loads starting from a duplicate-free registry leaves each
resolved path in the registry at most once. -/
theorem duplicate_load_is_noop_and_registry_nodup (reg : List String) (cyc : Bool)
    (fs : String → Option Unit) (fn : String) (pos : FilePos)
    (jobs : List (String × Bool × FilePos)) :
    (fn ∈ reg → process_source_file reg cyc fs fn pos =
        { loaded_files := reg, errors := [], ok := true, parsed := false })
    ∧ (reg.Nodup → (run_loads reg fs jobs).Nodup) := by
  constructor
  · intro h
    unfold process_source_file
    rw [if_pos h]
  · intro h
    exact run_loads_nodup fs jobs reg h

/-- C4 witness: reloading `x.onyx` is a success no-op, and a load sequence
that retries it leaves the registry duplicate-free. -/
theorem duplicate_load_is_noop_and_registry_nodup_witness :
    ("x.onyx" ∈ ["x.onyx"])
    ∧ process_source_file ["x.onyx"] false (fun _ => some ()) "x.onyx"
        { filename := none, line := 1, column := 1 } =
      { loaded_files := ["x.onyx"], errors := [], ok := true, parsed := false }
    ∧ (run_loads ["x.onyx"] (fun _ => some ())
        [("x.onyx", true, { filename := none, line := 1, column := 1 }),
         ("y.onyx", false, { filename := none, line := 1, column := 1 })]).Nodup :=
  ⟨by simp,
   (duplicate_load_is_noop_and_registry_nodup ["x.onyx"] false (fun _ => some ()) "x.onyx"
      { filename := none, line := 1, column := 1 } []).1 (by simp),
   (duplicate_load_is_noop_and_registry_nodup ["x.onyx"] false (fun _ => some ()) "x.onyx"
      { filename := none, line := 1, column := 1 }
      [("x.onyx", true, { filename := none, line := 1, column := 1 }),
       ("y.onyx", false, { filename := none, line := 1, column := 1 })]).2 (by simp)⟩

/-- The detector-side re-insert only happens on dispatches that did not
change the entity's state. -/
lemma detect_step_inserted_not_changed (d : DetectState) (c : Bool) (e : Nat × Nat)
    (h : (detect_step d c e).2 = true) : c = false := by
  cases c with
  | false => rfl
  | true => simp [detect_step] at h

/-- The re-insert condition of onyx.c line 1012 agrees with `isFinal`. -/
lemma isFinal_false_iff (s : EntityState) :
    isFinal s = false ↔ (s ≠ EntityState.Finalized ∧ s ≠ EntityState.Failed) := by
  cases s <;> simp [isFinal]

/-- C5 counterexample: the claim says the popped entity is re-inserted if
and only if its post-dispatch state is neither `Finalized` nor `Failed`.
In an iteration that reports errors (here: dispatching an `Error`-state
entity, which reports a critical error and keeps its state) the driver
returns before the re-insert at line 1012, so the entity is not
re-inserted although its state is not terminal. -/
theorem reinsert_skipped_on_error_abort :
    (loop_iter [(0, EntityState.Error)] true (0, EntityState.Error) EntityState.Error 0
        detect_init true).1.reinserted = false
    ∧ isFinal EntityState.Error = false := by decide

/-- C5 (amended): in every main-loop iteration that does not abort with
reported errors, the popped entity is re-inserted at the end of the loop
body iff its post-dispatch state is neither `Finalized` nor `Failed`; and
in every iteration (aborting or not) the resulting heap contains no
`Finalized` or `Failed` entity, because the end-of-loop insert is guarded
and the detector-side insert only occurs for an unchanged (hence
non-terminal) state. -/
theorem reinsert_iff_not_final_when_no_errors (heap : List (Nat × EntityState)) (e0 : Bool)
    (ent : Nat × EntityState) (post : EntityState) (att : Nat)
    (d : DetectState) (he : Bool)
    (hheap : ∀ x ∈ heap, isFinal x.2 = false) (hent : ent ∈ heap) :
    (he = false →
      ((loop_iter heap e0 ent post att d he).1.reinserted = true ↔ isFinal post = false))
    ∧ (∀ x ∈ (loop_iter heap e0 ent post att d he).1.heap, isFinal x.2 = false) := by
  have hf_ent : isFinal ent.2 = false := hheap ent hent
  have hpost_of_stall :
      (detect_step d (decide (post ≠ ent.2)) (ent.1, att)).2 = true → isFinal post = false := by
    intro h2
    have hcf := detect_step_inserted_not_changed d _ _ h2
    have hpe : post = ent.2 := by
      by_contra hne
      simp [hne] at hcf
    rw [hpe]
    exact hf_ent
  have herase : ∀ x ∈ heap.erase ent, isFinal x.2 = false :=
    fun x hx => hheap x (List.mem_of_mem_erase hx)
  have hheap2 : ∀ x ∈ (if (detect_step d (decide (post ≠ ent.2)) (ent.1, att)).2
        then (ent.1, post) :: heap.erase ent else heap.erase ent),
      isFinal x.2 = false := by
    by_cases h2 : (detect_step d (decide (post ≠ ent.2)) (ent.1, att)).2 = true
    · rw [if_pos h2]
      intro x hx
      rcases List.mem_cons.1 hx with rfl | hx2
      · exact hpost_of_stall h2
      · exact herase x hx2
    · rw [if_neg h2]
      exact herase
  cases he with
  | true =>
      refine ⟨fun h => by simp at h, ?_⟩
      intro x hx
      exact hheap2 x hx
  | false =>
      constructor
      · intro _
        show decide (post ≠ EntityState.Finalized ∧ post ≠ EntityState.Failed) = true ↔ _
        rw [decide_eq_true_iff, isFinal_false_iff]
      · intro x hx
        by_cases hrc : (post ≠ EntityState.Finalized ∧ post ≠ EntityState.Failed)
        · have hh : (loop_iter heap e0 ent post att d false).1.heap
              = (ent.1, post) :: (if (detect_step d (decide (post ≠ ent.2)) (ent.1, att)).2
                  then (ent.1, post) :: heap.erase ent else heap.erase ent) := by
            simp [loop_iter, hrc]
          rw [hh] at hx
          rcases List.mem_cons.1 hx with rfl | hx2
          · exact (isFinal_false_iff post).2 hrc
          · exact hheap2 x hx2
        · have hh : (loop_iter heap e0 ent post att d false).1.heap
              = (if (detect_step d (decide (post ≠ ent.2)) (ent.1, att)).2
                  then (ent.1, post) :: heap.erase ent else heap.erase ent) := by
            simp [loop_iter, hrc]
          rw [hh] at hx
          exact hheap2 x hx

/-- C5 witness: an entity finishing `Parse` as `Finalized` in an
error-free iteration is not re-inserted and the heap stays free of
terminal entities. -/
theorem reinsert_iff_not_final_when_no_errors_witness :
    ((0, EntityState.Parse) ∈ [((0 : Nat), EntityState.Parse)])
    ∧ ((false = false →
        ((loop_iter [((0 : Nat), EntityState.Parse)] true (0, EntityState.Parse)
            EntityState.Finalized 0 detect_init false).1.reinserted = true
          ↔ isFinal EntityState.Finalized = false))
      ∧ (∀ x ∈ (loop_iter [((0 : Nat), EntityState.Parse)] true (0, EntityState.Parse)
            EntityState.Finalized 0 detect_init false).1.heap, isFinal x.2 = false)) :=
  ⟨by decide,
   reinsert_iff_not_final_when_no_errors [((0 : Nat), EntityState.Parse)] true
     (0, EntityState.Parse) EntityState.Finalized 0 detect_init false
     (by decide) (by decide)⟩

/-- C9: every main-loop iteration unconditionally re-enables error
reporting before the top entity is removed and dispatched, so a disabled
error-reporting toggle left by a speculative phase never persists into
the next dispatch. -/
theorem errors_reenabled_before_each_dispatch (heap : List (Nat × EntityState)) (e0 : Bool)
    (ent : Nat × EntityState) (post : EntityState) (att : Nat)
    (d : DetectState) (he : Bool) :
    (loop_iter heap e0 ent post att d he).1.errors_on_at_dispatch = true := by
  cases he <;> rfl

end Onyx

namespace Onyx

/-- C6 counterexample: with `-o` as the last argument of `onyx build`,
the parser finishes normally and returns an options record with a NULL
target file — no missing-argument error is reported and `exit(1)` is not
reached; with `-r` last, the NULL `argv[argc]` terminator is handed to
`strcmp`, a crash rather than a reported error. -/
theorem missing_flag_argument_reports_no_error :
    compile_opts_parse "/onyx" none (fun _ => false) ["build", "-o"]
      = ParseOutcome.ok { build_base "/onyx" none with target_file := none }
    ∧ compile_opts_parse "/onyx" none (fun _ => false) ["build", "-r"]
      = ParseOutcome.crash :=
  ⟨rfl, rfl⟩

/-- C6 (amended): when a flag that requires an argument is the last
command-line argument, no malformed/missing-argument diagnostic is
produced: `-o`/`--output`, `--error-format`, `--doc`, `--syminfo`,
`--lspinfo` and `-I` silently store the NULL `argv[argc]` terminator as
the value and parsing completes successfully, while `-r`/`--runtime` and
`--feature` pass the NULL pointer to `strcmp` — undefined behavior (a
crash), not a reported error with exit status 1. -/
theorem missing_flag_argument_behavior (core : String) (env : Option String)
    (te : String → Bool) :
    compile_opts_parse core env te ["build", "-o"]
      = ParseOutcome.ok { build_base core env with target_file := none }
    ∧ compile_opts_parse core env te ["build", "--output"]
      = ParseOutcome.ok { build_base core env with target_file := none }
    ∧ compile_opts_parse core env te ["build", "--error-format"]
      = ParseOutcome.ok { build_base core env with error_format := none }
    ∧ compile_opts_parse core env te ["build", "--doc"]
      = ParseOutcome.ok { build_base core env with documentation_file := none }
    ∧ compile_opts_parse core env te ["build", "--syminfo"]
      = ParseOutcome.ok { build_base core env with
          generate_symbol_info_file := true, symbol_info_file := none }
    ∧ compile_opts_parse core env te ["build", "--lspinfo"]
      = ParseOutcome.ok { build_base core env with
          generate_symbol_info_file := true,
          generate_lsp_info_file := true, symbol_info_file := none }
    ∧ compile_opts_parse core env te ["build", "-I"]
      = ParseOutcome.ok { build_base core env with
          included_folders := [some core, some ".", none] }
    ∧ compile_opts_parse core env te ["build", "-r"] = ParseOutcome.crash
    ∧ compile_opts_parse core env te ["build", "--runtime"] = ParseOutcome.crash
    ∧ compile_opts_parse core env te ["build", "--feature"] = ParseOutcome.crash :=
  ⟨rfl, rfl, rfl, rfl, rfl, rfl, rfl, rfl, rfl, rfl⟩

/-- C7: under the check action every entity reaching `Code_Gen` is moved
directly to `Finalized` without invoking the emitter, whatever the
emitter would have produced; and `main` never calls `onyx_flush_module`
for the check action, so no output module file is created. -/
theorem check_action_skips_codegen_and_flush :
    (∀ e, code_gen_case Action.Check e = (EntityState.Finalized, false))
    ∧ (∀ p, main_flushes Action.Check p = false) := by
  refine ⟨fun e => rfl, fun p => ?_⟩
  cases p <;> rfl

/-- C8: when multithreading is enabled and post-MVP features are
disabled, `onyx_flush_module` writes exactly two wasm modules — the
companion at `<target>.data` carrying the data segment and the main
module at the target path stripped of it; in every other combination of
the two options a single module keeping its data segment is written at
the target path.  (Javascript partials, when present, are written
separately as `<target>.js` in either case.) -/
theorem flush_writes_data_companion_iff_mvp_threading (target : String) (d : Option Nat)
    (js : List String) (cc : String → Bool) (h1 : cc target = true)
    (h2 : cc (target ++ ".data") = true) (h3 : cc (target ++ ".js") = true) :
    onyx_flush_module target true false d js cc
      = some { module_writes := [(target ++ ".data", d), (target, none)],
               js_writes := if js.length > 0 then [target ++ ".js"] else [] }
    ∧ ∀ (mt pm : Bool), (mt && !pm) = false →
        onyx_flush_module target mt pm d js cc
          = some { module_writes := [(target, d)],
                   js_writes := if js.length > 0 then [target ++ ".js"] else [] } := by
  constructor
  · unfold onyx_flush_module
    by_cases hj : js.length > 0 <;> simp [h1, h2, h3, hj]
  · intro mt pm hmp
    unfold onyx_flush_module
    by_cases hj : js.length > 0 <;> simp [h1, h3, hmp, hj]

/-- C8 witness: flushing `out.wasm` with multithreading on and post-MVP
off writes the `.data` companion with the data segment and the stripped
main module. -/
theorem flush_writes_data_companion_iff_mvp_threading_witness :
    ((fun _ : String => true) "out.wasm" = true)
    ∧ onyx_flush_module "out.wasm" true false (some 7) [] (fun _ => true)
        = some { module_writes := [("out.wasm" ++ ".data", some 7), ("out.wasm", none)],
                 js_writes := if ([] : List String).length > 0
                              then ["out.wasm" ++ ".js"] else [] } :=
  ⟨rfl,
   (flush_writes_data_companion_iff_mvp_threading "out.wasm" (some 7) [] (fun _ => true)
      rfl rfl rfl).1⟩

/-- C10: the `pkg` (or `package`) subcommand selects the run action,
forcibly enables `generate_method_info`, compiles the single file
`<ONYX_PATH>/tools/onyx-pkg.onyx`, and passes every remaining argument
through unmodified while skipping all normal option parsing — every
other option keeps its default (multithreading is on only because the
default onyx runtime forces it at the skip label). -/
theorem pkg_subcommand_forces_method_info_and_passthrough (core : String)
    (env : Option String) (te : String → Bool) (rest : List String) :
    compile_opts_parse core env te ("pkg" :: rest)
      = ParseOutcome.ok { opts_default core env with
          action := Action.Run, use_multi_threading := true,
          generate_method_info := true,
          files := [core ++ "/tools/onyx-pkg.onyx"], passthrough := rest }
    ∧ compile_opts_parse core env te ("package" :: rest)
      = ParseOutcome.ok { opts_default core env with
          action := Action.Run, use_multi_threading := true,
          generate_method_info := true,
          files := [core ++ "/tools/onyx-pkg.onyx"], passthrough := rest } :=
  ⟨rfl, rfl⟩

end Onyx
